import Mathlib

/-!
# Verification of the xenoform pattern language core

Shallow embedding of the pattern-language core of the repository:
the `Pattern` AST (`src/language/ast.ts`), the compiler
(`src/language/compiler.ts`), the animation signal `tween` and the
configuration setters `setdim`/`setspc`, and the auto-rooting registry.

Modelling conventions:
* JS numbers (IEEE doubles) are modelled as exact rationals `ℚ`.  Every JS
  double is a rational, and the claims under study only involve values on
  which double arithmetic is exact or the comparison is robust.
* `Infinity` appears only as a duration, modelled by the type `Dur`
  (a rational or `inf`).  Negative infinity and NaN are not representable;
  the few code paths that could produce them in JS (noted at each site)
  are given harmless junk values and are not relied on by any theorem.
* The transcendental functions `Math.sin`, `Math.cos`, `Math.sqrt`, the
  constant `Math.PI` and the Perlin sampler `perlin2` are abstracted into
  a `MathEnv` parameter: in JS they are functions from doubles to doubles,
  i.e. rational-valued; no theorem below depends on their actual values,
  so results are proved for every environment (in particular the real one).
-/

namespace Xenoform

/-- A compiled pattern function `(x, z, t, n) → h` (src/language/ast.ts). -/
abbrev PatternFn : Type := ℚ → ℚ → ℚ → ℚ → ℚ

/-- Abstraction of the numeric library functions used by the compiler.
In JS these are functions on IEEE doubles (hence rational-valued); all
theorems hold for an arbitrary environment. -/
structure MathEnv where
  sin : ℚ → ℚ
  cos : ℚ → ℚ
  sqrt : ℚ → ℚ
  perlin2 : ℚ → ℚ → ℚ
  pi : ℚ

/-- A concrete environment used to instantiate closed statements whose
evaluation never touches the environment. -/
def anyEnv : MathEnv := ⟨fun _ => 0, fun _ => 0, fun _ => 0, fun _ _ => 0, 0⟩

/-- `clamp01(v) = Math.max(0, Math.min(1, v))` of the math-helpers module
(the `math-helpers.ts` implementation is present in the sources as the
appended segment of src/utils/url-compression.ts): clamp a value into
`[0,1]`. -/
def clamp01 (v : ℚ) : ℚ := max 0 (min 1 v)

/-- `smoothstep(t)` of the math-helpers module (appended segment of
src/utils/url-compression.ts): the Hermite smoothstep, `t` clamped by
`clamp01` and then `t²(3−2t)`. -/
def smoothstep (t : ℚ) : ℚ :=
  let c := clamp01 t
  c * c * (3 - 2 * c)

/-- JS `Math.round`: round half toward positive infinity. -/
def jsRound (q : ℚ) : ℤ := ⌊q + 1/2⌋

/-- JS truncation (`Math.trunc` / the quotient underlying `%`). -/
def jsTrunc (q : ℚ) : ℤ := if 0 ≤ q then ⌊q⌋ else ⌈q⌉

/-- The JS remainder operator `a % b`: `a - b * trunc(a / b)`, result has
the sign of the dividend.  For `b = 0` JS yields NaN; here the junk value
`a` results (never relied upon). -/
def jsRem (a b : ℚ) : ℚ := a - b * (jsTrunc (a / b) : ℚ)

/-- A duration: a rational number of seconds or `Infinity`.
JS stores durations in plain numbers; `Infinity` arises from
`sleep(Infinity)` and from sequences containing an infinite hold. -/
inductive Dur : Type where
  | fin (q : ℚ)
  | inf
deriving DecidableEq, Repr

namespace Dur

/-- JS `Number.isFinite` on a duration. -/
def isFinite : Dur → Bool
  | fin _ => true
  | inf => false

/-- Addition of durations; `Infinity` is absorbing (as in JS for
nonnegative summands, the only use sites). -/
def add : Dur → Dur → Dur
  | fin a, fin b => fin (a + b)
  | _, _ => inf

/-- The finite value of a duration (junk `0` for `inf`; used only where
the code has already checked finiteness, or in corners noted as junk). -/
def toQ : Dur → ℚ
  | fin q => q
  | inf => 0

/-- Duration times a scalar (`slow`).  In JS `Infinity * f` is `Infinity`
for `f > 0`, NaN or negative infinity for `f ≤ 0`; the junk value `inf`
stands in. -/
def mulQ : Dur → ℚ → Dur
  | fin a, f => fin (a * f)
  | inf, _ => inf

/-- Duration divided by a scalar (`fast`).  In JS `q / 0` is `±Infinity`;
here the junk value `fin 0` results (rational division by zero). -/
def divQ : Dur → ℚ → Dur
  | fin a, f => fin (a / f)
  | inf, _ => inf

/-- `Math.max` of two durations (`blend`/`add`/`mul` duration rule). -/
def maxD : Dur → Dur → Dur
  | fin a, fin b => fin (max a b)
  | _, _ => inf

/-- The finite-positive duration check: JS `Number.isFinite(d) && d > 0`. -/
def finPos : Dur → Bool
  | fin q => decide (0 < q)
  | inf => false

end Dur

/-- The timeline segment test `lt < seg.e || !isFinite(seg.e)` of the
sequence sampler. -/
def timeMatches (t : ℚ) (e : Dur) : Bool :=
  match e with
  | Dur.fin q => decide (t < q)
  | Dur.inf => true

/-- `transitionDuration(toDur) = Math.min(0.8, toDur * 0.4)`
(src/language/compiler.ts).  For an infinite duration JS gives
`min(0.8, Infinity) = 0.8`. -/
def transitionDuration : Dur → ℚ
  | Dur.fin q => min 0.8 (q * 0.4)
  | Dur.inf => 0.8

mutual

/-- The `Pattern` AST node (src/language/ast.ts).  One constructor per
recognized `_type` tag, carrying the `_args` of that kind; `unknown`
stands for any unrecognized `_type` (in TS the tag is a string, so
malformed trees can carry arbitrary tags at runtime). -/
inductive Pattern : Type where
  | flat (h : ℚ)
  | wave (fx fz : ℚ)
  | ripple (cx cz freq : ℚ)
  | checker (size : ℚ)
  | gridlines (spacing : ℚ)
  | pyramid
  | noise (scale : ℚ)
  | map (fn : PatternFn)
  | sleep (duration : Dur)
  | seq (patterns : List Pattern)
  | rotate (source : Pattern) (angle : Arg)
  | scale (source : Pattern) (sx : ℚ) (sz : Option ℚ)
  | offset (source : Pattern) (ox oz : Arg)
  | slow (source : Pattern) (factor : ℚ)
  | fast (source : Pattern) (factor : ℚ)
  | ease (source : Pattern)
  | inv (source : Pattern)
  | blend (a b : Pattern) (mix : Arg)
  | add (a b : Pattern)
  | mul (a b : Pattern)
  | time (source : Pattern) (seconds : Dur)
  | unknown (kind : String)

/-- A value in an argument slot that the compiler resolves with
`resolveArgWithContext`: a nested `Pattern`, a raw callback, or a numeric
constant (src/language/compiler.ts `resolveArgWithContext`). -/
inductive Arg : Type where
  | pat (p : Pattern)
  | fn (f : PatternFn)
  | const (c : ℚ)

end

namespace Pattern

/-- `p._type === "sleep"`. -/
def isSleep : Pattern → Bool
  | .sleep _ => true
  | _ => false

/-- `p._args.duration ?? Infinity` of a sleep node (junk `inf` for other
kinds; only read after an `isSleep` check, mirroring the JS access). -/
def sleepDuration : Pattern → Dur
  | .sleep d => d
  | _ => Dur.inf

/-- `source._type === "seq"` (used by the `time` compilation case). -/
def isSeq : Pattern → Bool
  | .seq _ => true
  | _ => false

end Pattern

/-- `unwrapTime` (src/language/compiler.ts): a `time` node unwraps to its
source together with its explicit `seconds`; any other node is its own
inner pattern with no override. -/
def unwrapTime : Pattern → Pattern × Option Dur
  | .time source seconds => (source, some seconds)
  | p => (p, none)

/-- `flattenSeqItems` (src/language/compiler.ts): recursively splice the
items of bare nested `seq` children into the parent list; any other child
(including a `time`-wrapped `seq`) is kept opaque. -/
def flattenSeqItems : List Pattern → List Pattern
  | [] => []
  | .seq qs :: rest => flattenSeqItems qs ++ flattenSeqItems rest
  | p :: rest => p :: flattenSeqItems rest
termination_by l => sizeOf l
decreasing_by all_goals (simp_wf; try omega)

theorem sizeOf_list_append (l₁ l₂ : List Pattern) :
    sizeOf (l₁ ++ l₂) + 1 = sizeOf l₁ + sizeOf l₂ := by
  induction l₁ with
  | nil => simp; omega
  | cons a l ih => simp only [List.cons_append, List.cons.sizeOf_spec]; omega

theorem sizeOf_flattenSeqItems (l : List Pattern) :
    sizeOf (flattenSeqItems l) ≤ sizeOf l := by
  induction l using flattenSeqItems.induct with
  | case1 => simp [flattenSeqItems]
  | case2 qs rest ih1 ih2 =>
      rw [flattenSeqItems]
      have h3 := sizeOf_list_append (flattenSeqItems qs) (flattenSeqItems rest)
      simp only [List.cons.sizeOf_spec, Pattern.seq.sizeOf_spec]
      omega
  | case3 p rest hne ih =>
      rw [flattenSeqItems]
      · simp only [List.cons.sizeOf_spec]; omega
      · exact hne

theorem sizeOf_unwrapTime_fst (p : Pattern) : sizeOf (unwrapTime p).1 ≤ sizeOf p := by
  cases p <;> (simp [unwrapTime]; try omega)

/-- The compile context (src/language/compiler.ts `CompileContext`). -/
structure CompileContext where
  secondsPerCycle : ℚ
deriving DecidableEq, Repr

/-- `DEFAULT_SECONDS_PER_CYCLE = 1`. -/
def DEFAULT_SECONDS_PER_CYCLE : ℚ := 1

/-- `defaultContext` (src/language/compiler.ts). -/
def defaultContext : CompileContext := ⟨DEFAULT_SECONDS_PER_CYCLE⟩

/-- Wrap metadata of a compiled `seq` node
(src/language/compiler.ts `CompiledNode.wrapInfo`). -/
structure WrapInfo where
  firstFn : PatternFn
  lastFn : PatternFn
  firstDuration : Dur

/-- The result of `compileNode` (src/language/compiler.ts `CompiledNode`).
In JS, absent `loop`/`wrapInfo` fields read as `undefined` (falsy); they
are modelled by `false` / `none`. -/
structure CompiledNode where
  fn : PatternFn
  duration : Dur
  loop : Bool
  wrapInfo : Option WrapInfo

/-- A planned sequence item (src/language/compiler.ts `PlannedItem`):
`isHold` is the `type: "p" | "h"` tag (`true` for `"h"`). -/
structure PlanItem where
  isHold : Bool
  fn : PatternFn
  duration : Dur

/-- Segment tag `"p" | "h" | "x"` of the seq timeline. -/
inductive SegType : Type where
  | p
  | h
  | x
deriving DecidableEq, Repr

/-- A timeline segment (src/language/compiler.ts `Segment`).  `fromFn` and
`toFn` model the JS fields `from`/`to` (`from` is a reserved word in
Lean). -/
structure Seg where
  s : Dur
  e : Dur
  typ : SegType
  fn : Option PatternFn
  fromFn : Option PatternFn
  toFn : Option PatternFn

/-- The sampler loop of a compiled seq node: walk the segments in order,
return the first whose `lt < e || !isFinite(e)` test passes, and fall back
to `lastFn ? lastFn(x, z, 0, n) : 0` past the end.  Where a segment start
`s` is `Infinity` (possible in JS only after a pattern item of infinite
duration; never the case in any theorem below) `Dur.toQ` substitutes junk
`0` for the unrepresentable `-Infinity` local time. -/
def seqSampleGo (lastFn : Option PatternFn) : List Seg → PatternFn
  | [] => fun x z _t n =>
      match lastFn with
      | some f => f x z 0 n
      | none => 0
  | seg :: rest => fun x z t n =>
      if timeMatches t seg.e then
        match seg.typ with
        | SegType.p | SegType.h =>
          match seg.fn with
          | some f => f x z (t - seg.s.toQ) n
          | none => 0
        | SegType.x =>
          let bl := smoothstep ((t - seg.s.toQ) / (seg.e.toQ - seg.s.toQ))
          let localT := t - seg.s.toQ
          (match seg.fromFn with | some f => f x z localT n | none => 0) * (1 - bl) +
            (match seg.toFn with | some f => f x z localT n | none => 0) * bl
      else seqSampleGo lastFn rest x z t n

/-- The mutable state of the segment-building loop in the `seq` case of
`compileNode`: accumulated `segs`, the time `cursor`, the `lastFn`,
`firstFn`, `firstPatternDur` and `hasInfHold` variables.  JS later
compares the closures `firstFn !== lastFn` by object identity; since
every planned pattern entry carries a freshly allocated closure, the two
coincide exactly when the first pattern entry is still the last one.
This is tracked by `lastIsFirst`, set when a pattern entry is planned.
(The one JS corner where two distinct entries could share a closure —
two `map` items passing the very same callback object — is outside the
model and not exercised by any theorem.) -/
structure SeqBuild where
  segs : List Seg
  cursor : Dur
  lastFn : Option PatternFn
  firstFn : Option PatternFn
  firstPatternDur : Dur
  hasInfHold : Bool
  lastIsFirst : Bool

/-- One-pass segment construction over the planned items (the
`for (const plan of planned)` loop of the `seq` case).  An infinite hold
pushes its open-ended segment and breaks out of the loop. -/
def buildSegsGo (st : SeqBuild) : List PlanItem → SeqBuild
  | [] => st
  | plan :: rest =>
      if plan.isHold then
        if plan.duration.isFinite then
          match st.lastFn with
          | some lf =>
              buildSegsGo
                { st with
                  segs := st.segs ++
                    [(⟨st.cursor, st.cursor.add plan.duration, SegType.h, some lf, none,
                       none⟩ : Seg)],
                  cursor := st.cursor.add plan.duration }
                rest
          | none => buildSegsGo st rest
        else
          { st with
            segs := st.segs ++ [(⟨st.cursor, Dur.inf, SegType.h, st.lastFn, none, none⟩ : Seg)],
            hasInfHold := true }
      else
        let st1 :=
          if st.firstFn.isNone then
            { st with firstFn := some plan.fn, firstPatternDur := plan.duration }
          else st
        let st2 :=
          match st1.lastFn with
          | some lf =>
              let tt := transitionDuration plan.duration
              { st1 with
                segs := st1.segs ++
                  [(⟨st1.cursor, st1.cursor.add (Dur.fin tt), SegType.x, none, some lf,
                     some plan.fn⟩ : Seg)],
                cursor := st1.cursor.add (Dur.fin tt) }
          | none => st1
        let st3 :=
          { st2 with
            segs := st2.segs ++
              [(⟨st2.cursor, st2.cursor.add plan.duration, SegType.p, some plan.fn, none,
                 none⟩ : Seg)],
            cursor := st2.cursor.add plan.duration,
            lastFn := some plan.fn,
            lastIsFirst := st.firstFn.isNone }
        buildSegsGo st3 rest

/-- Run the segment-building loop from the initial state (`cursor = 0`,
no functions seen, `firstPatternDur = spc`; `lastIsFirst` starts `true`
because `firstFn === lastFn` holds of two `null`s, though it is only ever
read when both functions exist). -/
def buildSegs (spc : ℚ) (planned : List PlanItem) : SeqBuild :=
  buildSegsGo ⟨[], Dur.fin 0, none, none, Dur.fin spc, false, true⟩ planned

/-- The top-level looping wrapper applied by `compile()`
(src/language/compiler.ts lines 83–105): when the compiled node asks to
loop and has finite positive duration, wrap time with modulo over
`duration + transitionDuration(firstDuration)` and crossfade at the wrap
boundary (or a simple modulo when there is no `wrapInfo`); otherwise
return the node's function unchanged. -/
def topWrap (node : CompiledNode) : PatternFn :=
  match node.duration with
  | Dur.fin d =>
      if node.loop ∧ 0 < d then
        match node.wrapInfo with
        | some w =>
            let tt := transitionDuration w.firstDuration
            let loopDur := d + tt
            fun x z t n =>
              let lt := jsRem t loopDur
              if lt < d then node.fn x z lt n
              else
                let bl := smoothstep ((lt - d) / tt)
                let localT := lt - d
                w.lastFn x z localT n * (1 - bl) + w.firstFn x z localT n * bl
        | none => fun x z t n => node.fn x z (jsRem t d) n
      else node.fn
  | Dur.inf => node.fn

mutual

/-- `compileNode` (src/language/compiler.ts lines 108–417): translate one
AST node into a `CompiledNode`.  Each case mirrors the corresponding
`switch` branch of the source. -/
def compileNode (env : MathEnv) (ctx : CompileContext) : Pattern → CompiledNode
  | .flat h =>
      { fn := fun _ _ _ _ => h, duration := Dur.fin ctx.secondsPerCycle,
        loop := false, wrapInfo := none }
  | .wave fx fz =>
      { fn := fun x z _ _ =>
          (env.sin (x * fx * env.pi * 2) * 0.5 + 0.5) *
            (env.cos (z * fz * env.pi * 2) * 0.5 + 0.5),
        duration := Dur.fin ctx.secondsPerCycle, loop := false, wrapInfo := none }
  | .ripple cx cz freq =>
      { fn := fun x z _ _ =>
          let d := env.sqrt ((x - cx) ^ 2 + (z - cz) ^ 2)
          env.sin (d * freq * env.pi * 2) * 0.5 + 0.5,
        duration := Dur.fin ctx.secondsPerCycle, loop := false, wrapInfo := none }
  | .checker size =>
      { fn := fun x z _ _ =>
          if jsRem ((⌊x * size⌋ : ℚ) + (⌊z * size⌋ : ℚ)) 2 = 0 then 0.9 else 0.1,
        duration := Dur.fin ctx.secondsPerCycle, loop := false, wrapInfo := none }
  | .gridlines spacing =>
      { fn := fun x z _ n =>
          let ix : ℚ := (jsRound (x * (n - 1)) : ℚ)
          let iz : ℚ := (jsRound (z * (n - 1)) : ℚ)
          if jsRem ix spacing = 0 ∨ jsRem iz spacing = 0 then 1 else 0.05,
        duration := Dur.fin ctx.secondsPerCycle, loop := false, wrapInfo := none }
  | .pyramid =>
      { fn := fun x z _ _ => 1 - max |x - 0.5| |z - 0.5| * 2,
        duration := Dur.fin ctx.secondsPerCycle, loop := false, wrapInfo := none }
  | .noise scale =>
      { fn := fun x z t _ => env.perlin2 (x * scale + t * 0.3) (z * scale + t * 0.2),
        duration := Dur.fin ctx.secondsPerCycle, loop := false, wrapInfo := none }
  | .map f =>
      { fn := f, duration := Dur.fin ctx.secondsPerCycle, loop := false, wrapInfo := none }
  | .sleep d =>
      { fn := fun _ _ _ _ => 0, duration := d, loop := false, wrapInfo := none }
  | .seq patterns =>
      let planned := planList env ctx (flattenSeqItems patterns)
      let b := buildSegs ctx.secondsPerCycle planned
      { fn := seqSampleGo b.lastFn b.segs,
        duration := if b.hasInfHold then Dur.inf else b.cursor,
        loop := true,
        wrapInfo :=
          match b.hasInfHold, b.firstFn, b.lastFn with
          | false, some ff, some lf =>
              if ¬ b.lastIsFirst then some ⟨ff, lf, b.firstPatternDur⟩ else none
          | _, _, _ => none }
  | .rotate source angle =>
      let srcNode := compileNode env ctx source
      let angFn := resolveArgC env ctx angle
      { fn := fun x z t n =>
          let ang := angFn x z t n
          let cx2 := x - 0.5
          let cz2 := z - 0.5
          srcNode.fn (cx2 * env.cos ang - cz2 * env.sin ang + 0.5)
            (cx2 * env.sin ang + cz2 * env.cos ang + 0.5) t n,
        duration := srcNode.duration, loop := srcNode.loop, wrapInfo := none }
  | .scale source sx sz =>
      let srcNode := compileNode env ctx source
      let szv := sz.getD sx
      { fn := fun x z t n => srcNode.fn ((x - 0.5) / sx + 0.5) ((z - 0.5) / szv + 0.5) t n,
        duration := srcNode.duration, loop := srcNode.loop, wrapInfo := none }
  | .offset source ox oz =>
      let srcNode := compileNode env ctx source
      let oxFn := resolveArgC env ctx ox
      let ozFn := resolveArgC env ctx oz
      { fn := fun x z t n => srcNode.fn (x - oxFn x z t n) (z - ozFn x z t n) t n,
        duration := srcNode.duration, loop := srcNode.loop, wrapInfo := none }
  | .slow source f =>
      let srcNode := compileNode env ctx source
      { fn := fun x z t n => srcNode.fn x z (t / f) n,
        duration := srcNode.duration.mulQ f, loop := srcNode.loop, wrapInfo := none }
  | .fast source f =>
      let srcNode := compileNode env ctx source
      { fn := fun x z t n => srcNode.fn x z (t * f) n,
        duration := srcNode.duration.divQ f, loop := srcNode.loop, wrapInfo := none }
  | .ease source =>
      let srcNode := compileNode env ctx source
      { fn := fun x z t n => smoothstep (srcNode.fn x z t n),
        duration := srcNode.duration, loop := srcNode.loop, wrapInfo := none }
  | .inv source =>
      let srcNode := compileNode env ctx source
      { fn := fun x z t n => 1 - srcNode.fn x z t n,
        duration := srcNode.duration, loop := srcNode.loop, wrapInfo := none }
  | .blend a b mix =>
      let aNode := compileNode env ctx a
      let bNode := compileNode env ctx b
      let mFn := resolveArgC env ctx mix
      { fn := fun x z t n =>
          let m := mFn x z t n
          aNode.fn x z t n * (1 - m) + bNode.fn x z t n * m,
        duration := aNode.duration.maxD bNode.duration, loop := false, wrapInfo := none }
  | .add a b =>
      let aNode := compileNode env ctx a
      let bNode := compileNode env ctx b
      { fn := fun x z t n => clamp01 (aNode.fn x z t n + bNode.fn x z t n),
        duration := aNode.duration.maxD bNode.duration, loop := false, wrapInfo := none }
  | .mul a b =>
      let aNode := compileNode env ctx a
      let bNode := compileNode env ctx b
      { fn := fun x z t n => aNode.fn x z t n * bNode.fn x z t n,
        duration := aNode.duration.maxD bNode.duration, loop := false, wrapInfo := none }
  | .time source seconds =>
      let srcNode := compileNode env ctx source
      if source.isSeq ∧ seconds.finPos ∧ srcNode.duration.finPos then
        { fn := fun x z t n => srcNode.fn x z (t * (srcNode.duration.toQ / seconds.toQ)) n,
          duration := seconds, loop := srcNode.loop, wrapInfo := srcNode.wrapInfo }
      else
        { fn := srcNode.fn, duration := seconds, loop := srcNode.loop,
          wrapInfo := srcNode.wrapInfo }
  | .unknown _ =>
      { fn := fun _ _ _ _ => 0, duration := Dur.fin ctx.secondsPerCycle,
        loop := false, wrapInfo := none }
termination_by p => sizeOf p
decreasing_by
  all_goals simp_wf
  all_goals first
    | omega
    | (have hfl := sizeOf_flattenSeqItems patterns; omega)

/-- The planning loop of the `seq` case (src/language/compiler.ts lines
189–219): unwrap `time` overrides, turn sleeps into holds (breaking at an
infinite sleep), compile other items and rescale their time axis when a
finite positive override meets a finite positive natural duration. -/
def planList (env : MathEnv) (ctx : CompileContext) : List Pattern → List PlanItem
  | [] => []
  | item :: rest =>
      let inner := (unwrapTime item).1
      let explicitDur := (unwrapTime item).2
      if inner.isSleep then
        let sleepDur := explicitDur.getD inner.sleepDuration
        if sleepDur.isFinite then
          ⟨true, fun _ _ _ _ => 0, sleepDur⟩ :: planList env ctx rest
        else
          [⟨true, fun _ _ _ _ => 0, sleepDur⟩]
      else
        let compiled := compileNode env ctx inner
        let targetDur := explicitDur.getD compiled.duration
        let fn :=
          match explicitDur, compiled.duration with
          | some (Dur.fin e), Dur.fin cd =>
              if 0 < e ∧ 0 < cd then
                fun x z t n => compiled.fn x z (t * (cd / e)) n
              else compiled.fn
          | _, _ => compiled.fn
        ⟨false, fn, targetDur⟩ :: planList env ctx rest
termination_by l => sizeOf l
decreasing_by
  all_goals simp_wf
  all_goals first
    | omega
    | (have hun := sizeOf_unwrapTime_fst item; omega)

/-- `resolveArgWithContext` (src/language/compiler.ts lines 41–46): a
`Pattern` argument is compiled through the full `compile` entry point
(hence `topWrap` applies), a function passes through, anything else is a
constant. -/
def resolveArgC (env : MathEnv) (ctx : CompileContext) : Arg → PatternFn
  | .pat p => topWrap (compileNode env ctx p)
  | .fn f => f
  | .const c => fun _ _ _ _ => c
termination_by a => sizeOf a
decreasing_by
  all_goals simp_wf

end

/-- `compile` (src/language/compiler.ts lines 76–106): compile the node
and add top-level looping via `topWrap`.  The TS signature takes a
`Partial<CompileContext>` merged over `defaultContext`; the model takes
the already-merged context. -/
def compile (env : MathEnv) (pat : Pattern) (ctx : CompileContext) : PatternFn :=
  topWrap (compileNode env ctx pat)

/-! ## Animation signal functions (`tween`) -/

/-- `tween(from, to, duration, easeFn)` (animation signal functions file):
a closure over time only.  `fromV`/`toV` model the JS parameters
`from`/`to` (reserved words in Lean); a missing `easeFn` defaults to
`smoothstep` (`easeFn ?? smoothstep`). -/
def tween (fromV toV duration : ℚ) (easeFn : Option (ℚ → ℚ)) : PatternFn :=
  let eFn := easeFn.getD smoothstep
  fun _x _z t _n =>
    if duration ≤ 0 then toV
    else
      let p := min (t / duration) 1
      fromV + (toV - fromV) * eFn p

/-! ## Configuration API (`setdim` / `setspc`) -/

/-- `PendingConfig` (configuration API file). -/
structure PendingConfig where
  gridSize : Option ℤ
  background : Option String
  rotateMode : Option String
  secondsPerCycle : Option ℚ
deriving DecidableEq, Repr

/-- `createPendingConfig()`: all `null`. -/
def createPendingConfig : PendingConfig :=
  { gridSize := none, background := none, rotateMode := none, secondsPerCycle := none }

/-- `setdim(config, n)`: store `Math.max(2, Math.min(64, Math.round(n)))`.
The TS function mutates `config`; the model returns the updated record. -/
def setdim (config : PendingConfig) (n : ℚ) : PendingConfig :=
  { config with gridSize := some (max 2 (min 64 (jsRound n))) }

/-- `setspc(config, n)`: store `n` only when `Number.isFinite(n) && n > 0`
(every `ℚ` is finite; the JS `Infinity` input is outside the model and
irrelevant to the claims, which concern zero and negative inputs). -/
def setspc (config : PendingConfig) (n : ℚ) : PendingConfig :=
  if 0 < n then { config with secondsPerCycle := some n } else config

/-! ## The auto-rooting registry (src/language/ast.ts)

The `Pattern` constructor adds the new node to the static `_registry` set
(a JS `Set` iterated in insertion order) and removes every `Pattern`
found among its argument values, directly or inside an array-valued slot.
Nodes are identified by creation index (`nextId`), which is exactly the
object identity JS uses: each `new Pattern(...)` is a fresh object. -/

/-- One argument value as seen by the constructor's registry scan:
a `Pattern` reference, an array of values (only its `Pattern` elements
matter), or anything else (numbers, callbacks, strings). -/
inductive RegArg : Type where
  | node (id : ℕ)
  | arr (ids : List ℕ)
  | other
deriving DecidableEq, Repr

/-- The `Pattern` ids referenced by one argument list (the constructor
scans `Object.values(args)` and array elements). -/
def refsOf (args : List RegArg) : List ℕ :=
  args.flatMap fun a =>
    match a with
    | RegArg.node i => [i]
    | RegArg.arr l => l
    | RegArg.other => []

/-- The registry state: the next creation index and the current registry
contents in insertion order. -/
structure RegistryState where
  nextId : ℕ
  registry : List ℕ
deriving DecidableEq, Repr

/-- `Pattern._registry` after `Pattern.clear()`. -/
def clearedRegistry : RegistryState := ⟨0, []⟩

/-- `Set.delete`: remove an id, keeping the order of the rest. -/
def regDelete (r : List ℕ) (i : ℕ) : List ℕ := r.filter (fun j => j ≠ i)

/-- The registry effect of `new Pattern(type, args)` (src/language/ast.ts
lines 50–67): add the new node, then delete every referenced node. -/
def constructNode (st : RegistryState) (args : List RegArg) : RegistryState :=
  { nextId := st.nextId + 1,
    registry := (refsOf args).foldl regDelete (st.registry ++ [st.nextId]) }

/-- Run a whole script's sequence of constructions from a cleared
registry. -/
def runScript (cs : List (List RegArg)) : RegistryState :=
  cs.foldl constructNode clearedRegistry

/-- `Pattern.getRoots()`: the registry contents in insertion order. -/
def getRoots (st : RegistryState) : List ℕ := st.registry

/-- `true` when node `i` is never referenced by a construction later in
the script: the root criterion of the registry invariant. -/
def neverConsumedLater (cs : List (List RegArg)) (i : ℕ) : Bool :=
  (cs.drop (i+1)).all fun c => !(decide (i ∈ refsOf c))

/-- Validity of a construction list numbered from `k`: each construction
references only previously created nodes.  Every real script satisfies
this, since constructor arguments are existing `Pattern` objects. -/
def validFromB (k : ℕ) : List (List RegArg) → Bool
  | [] => true
  | c :: rest => (refsOf c).all (fun i => decide (i < k)) && validFromB (k+1) rest

/-! ## Supporting lemmas -/

theorem flattenSeqItems_cons (a : Pattern) (rest : List Pattern) :
    flattenSeqItems (a :: rest) = flattenSeqItems [a] ++ flattenSeqItems rest := by
  cases a <;> simp [flattenSeqItems]

theorem foldl_constructNode_nextId (cs : List (List RegArg)) (st : RegistryState) :
    (cs.foldl constructNode st).nextId = st.nextId + cs.length := by
  induction cs generalizing st with
  | nil => simp
  | cons c rest ih => simp [List.foldl_cons, ih, constructNode]; omega

theorem foldl_regDelete_eq (refs : List ℕ) (r : List ℕ) :
    refs.foldl regDelete r = r.filter (fun j => !(decide (j ∈ refs))) := by
  induction refs generalizing r with
  | nil => simp
  | cons i rs ih =>
      rw [List.foldl_cons, regDelete, ih, List.filter_filter]
      apply List.filter_congr
      intro a _
      by_cases h1 : a = i <;> by_cases h2 : a ∈ rs <;> simp [h1, h2]

theorem validFromB_append (k : ℕ) (l1 l2 : List (List RegArg)) :
    validFromB k (l1 ++ l2) = (validFromB k l1 && validFromB (k + l1.length) l2) := by
  induction l1 generalizing k with
  | nil => simp [validFromB]
  | cons c rest ih =>
      have hk : k + 1 + rest.length = k + (rest.length + 1) := by omega
      simp [validFromB, ih, hk, Bool.and_assoc]

/-! ## The claims -/

set_option maxHeartbeats 2000000 in
/-- C1: for `compile (seq (flat 0) (flat 1))` at the default
seconds-per-cycle of 1, the internal timeline is exactly `p1` on `[0,1)`,
a crossfade on `[1,1.4)`, `p2` on `[1.4,2.4)` (duration `2.4`), with the
wrap crossfade occupying `[2.4,2.8)` of the `2.8`-second loop
(`2.4 + transitionDuration 1 = 2.8`); sampling gives `0` at `t=0.5`, a
value strictly between `0` and `1` at `t=1.2`, `1` at `t=1.5` and `0`
again at `t=3.0` (wrapped modulo the loop). -/
theorem claim1_sequence_timing (env : MathEnv) (x z n : ℚ) :
    compileNode env defaultContext (.seq [.flat 0, .flat 1]) =
      { fn := seqSampleGo (some fun _ _ _ _ => (1:ℚ))
          [⟨.fin 0, .fin 1, .p, some fun _ _ _ _ => (0:ℚ), none, none⟩,
           ⟨.fin 1, .fin (7/5), .x, none, some fun _ _ _ _ => (0:ℚ),
             some fun _ _ _ _ => (1:ℚ)⟩,
           ⟨.fin (7/5), .fin (12/5), .p, some fun _ _ _ _ => (1:ℚ), none, none⟩],
        duration := .fin (12/5), loop := true,
        wrapInfo := some ⟨fun _ _ _ _ => (0:ℚ), fun _ _ _ _ => (1:ℚ), .fin 1⟩ } ∧
    (12/5 : ℚ) + transitionDuration (.fin 1) = 14/5 ∧
    compile env (.seq [.flat 0, .flat 1]) defaultContext x z (1/2) n = 0 ∧
    (0 < compile env (.seq [.flat 0, .flat 1]) defaultContext x z (6/5) n ∧
      compile env (.seq [.flat 0, .flat 1]) defaultContext x z (6/5) n < 1) ∧
    compile env (.seq [.flat 0, .flat 1]) defaultContext x z (3/2) n = 1 ∧
    compile env (.seq [.flat 0, .flat 1]) defaultContext x z 3 n = 0 := by
  refine ⟨?_, by norm_num [transitionDuration], ?_, ?_, ?_, ?_⟩
  · simp [compileNode, planList, flattenSeqItems, buildSegs, buildSegsGo, unwrapTime,
      Pattern.isSleep, transitionDuration, Dur.add, Dur.isFinite, defaultContext,
      DEFAULT_SECONDS_PER_CYCLE]
    norm_num
  · simp [compile, compileNode, planList, flattenSeqItems, buildSegs, buildSegsGo,
      seqSampleGo, topWrap, unwrapTime, Pattern.isSleep, transitionDuration,
      Dur.add, Dur.toQ, Dur.isFinite, timeMatches, jsRem, jsTrunc, smoothstep, clamp01,
      defaultContext, DEFAULT_SECONDS_PER_CYCLE]
    norm_num
  · constructor <;>
      (simp [compile, compileNode, planList, flattenSeqItems, buildSegs, buildSegsGo,
        seqSampleGo, topWrap, unwrapTime, Pattern.isSleep, transitionDuration,
        Dur.add, Dur.toQ, Dur.isFinite, timeMatches, jsRem, jsTrunc, smoothstep, clamp01,
        defaultContext, DEFAULT_SECONDS_PER_CYCLE]; norm_num)
  · simp [compile, compileNode, planList, flattenSeqItems, buildSegs, buildSegsGo,
      seqSampleGo, topWrap, unwrapTime, Pattern.isSleep, transitionDuration,
      Dur.add, Dur.toQ, Dur.isFinite, timeMatches, jsRem, jsTrunc, smoothstep, clamp01,
      defaultContext, DEFAULT_SECONDS_PER_CYCLE]
    norm_num
  · simp [compile, compileNode, planList, flattenSeqItems, buildSegs, buildSegsGo,
      seqSampleGo, topWrap, unwrapTime, Pattern.isSleep, transitionDuration,
      Dur.add, Dur.toQ, Dur.isFinite, timeMatches, jsRem, jsTrunc, smoothstep, clamp01,
      defaultContext, DEFAULT_SECONDS_PER_CYCLE]
    norm_num

/-- C2 (counterexample): the claim says compile() of a top-level node
that is not a seq — for instance a transform wrapping a seq — returns the
play-once function.  But `compile (inv (seq (flat 0) (flat 1)))` at
`t = 2.5` returns `1` (the modulo-looped value, `t mod 2.4 = 0.1` landing
in the first segment of the inverted sequence), while the play-once
function `(compileNode _).fn` returns `0` there: the transform propagated
the `loop` flag, so modulo-looping was applied. -/
theorem claim2_counterexample :
    compile anyEnv (.inv (.seq [.flat 0, .flat 1])) defaultContext 0 0 (5/2) 2 = 1 ∧
    (compileNode anyEnv defaultContext (.inv (.seq [.flat 0, .flat 1]))).fn 0 0 (5/2) 2
      = 0 := by
  have hrem : jsRem (5/2) (12/5) = 1/10 := by norm_num [jsRem, jsTrunc]
  constructor
  · simp only [compile, compileNode, planList, flattenSeqItems, buildSegs, buildSegsGo,
      unwrapTime, Pattern.isSleep, Dur.isFinite, topWrap, Dur.add,
      defaultContext, DEFAULT_SECONDS_PER_CYCLE]
    norm_num [hrem, seqSampleGo, timeMatches, Dur.toQ, transitionDuration]
  · simp only [compileNode, planList, flattenSeqItems, buildSegs, buildSegsGo,
      unwrapTime, Pattern.isSleep, Dur.isFinite,
      defaultContext, DEFAULT_SECONDS_PER_CYCLE]
    norm_num [seqSampleGo, timeMatches, Dur.toQ, Dur.add, transitionDuration]

set_option maxHeartbeats 2000000 in
/-- C2 (amended): modulo-looping is applied only by the outermost
`compile()`, and exactly when the compiled node's `loop` flag is set with
a finite positive duration: otherwise (flag clear, infinite or
non-positive duration) `compile` returns the play-once function.  The
flag is set by every `seq` and propagated by each single-source transform
(`rotate`, `scale`, `offset`, `slow`, `fast`, `ease`, `inv`, `time`),
while `blend`/`add`/`mul` clear it.  When looping applies it wraps time
modulo `duration + transitionDuration(firstDuration)` with the wrap
crossfade when `wrapInfo` is present, and modulo `duration` alone when a
transform dropped `wrapInfo`.  Nested `seq` children of a `seq` are not
separately modulo-looped: a time-wrapped `seq` item is planned as the
(rescaled) `compileNode` play-once function, and in the concrete program
`seq (time (seq (flat 0) (flat 1)) 1) (sleep 5)` the held child sampled
at inner argument `6` yields the play-once value `1`, where the
modulo-looped `compile` of the same child yields `0`. -/
theorem claim2_looping_rule :
    (∀ (env : MathEnv) (ctx : CompileContext) (p : Pattern),
      (compileNode env ctx p).loop = false → compile env p ctx = (compileNode env ctx p).fn) ∧
    (∀ (env : MathEnv) (ctx : CompileContext) (p : Pattern),
      (compileNode env ctx p).duration = Dur.inf →
        compile env p ctx = (compileNode env ctx p).fn) ∧
    (∀ (env : MathEnv) (ctx : CompileContext) (p : Pattern) (d : ℚ),
      (compileNode env ctx p).duration = Dur.fin d → d ≤ 0 →
        compile env p ctx = (compileNode env ctx p).fn) ∧
    (∀ (env : MathEnv) (ctx : CompileContext) (a b : Pattern) (m : Arg),
      (compileNode env ctx (.blend a b m)).loop = false ∧
      (compileNode env ctx (.add a b)).loop = false ∧
      (compileNode env ctx (.mul a b)).loop = false) ∧
    (∀ (env : MathEnv) (ctx : CompileContext) (ps : List Pattern),
      (compileNode env ctx (.seq ps)).loop = true) ∧
    (∀ (env : MathEnv) (ctx : CompileContext) (src : Pattern) (ang ox oz : Arg)
        (sx f : ℚ) (sz : Option ℚ) (secs : Dur),
      (compileNode env ctx (.rotate src ang)).loop = (compileNode env ctx src).loop ∧
      (compileNode env ctx (.scale src sx sz)).loop = (compileNode env ctx src).loop ∧
      (compileNode env ctx (.offset src ox oz)).loop = (compileNode env ctx src).loop ∧
      (compileNode env ctx (.slow src f)).loop = (compileNode env ctx src).loop ∧
      (compileNode env ctx (.fast src f)).loop = (compileNode env ctx src).loop ∧
      (compileNode env ctx (.ease src)).loop = (compileNode env ctx src).loop ∧
      (compileNode env ctx (.inv src)).loop = (compileNode env ctx src).loop ∧
      (compileNode env ctx (.time src secs)).loop = (compileNode env ctx src).loop) ∧
    (∀ (env : MathEnv) (ctx : CompileContext) (p : Pattern) (d : ℚ),
      (compileNode env ctx p).loop = true → (compileNode env ctx p).duration = Dur.fin d →
      0 < d → (compileNode env ctx p).wrapInfo = none →
        compile env p ctx = fun x z t n => (compileNode env ctx p).fn x z (jsRem t d) n) ∧
    (∀ (env : MathEnv) (ctx : CompileContext) (p : Pattern) (d : ℚ) (w : WrapInfo),
      (compileNode env ctx p).loop = true → (compileNode env ctx p).duration = Dur.fin d →
      0 < d → (compileNode env ctx p).wrapInfo = some w →
        compile env p ctx = fun x z t n =>
          let tt := transitionDuration w.firstDuration
          let lt := jsRem t (d + tt)
          if lt < d then (compileNode env ctx p).fn x z lt n
          else
            w.lastFn x z (lt - d) n * (1 - smoothstep ((lt - d) / tt)) +
              w.firstFn x z (lt - d) n * smoothstep ((lt - d) / tt)) ∧
    (∀ (env : MathEnv) (ctx : CompileContext) (l rest : List Pattern) (s cd : ℚ),
      0 < s → (compileNode env ctx (.seq l)).duration = Dur.fin cd → 0 < cd →
        planList env ctx (.time (.seq l) (.fin s) :: rest) =
          ⟨false, fun x z t n => (compileNode env ctx (.seq l)).fn x z (t * (cd / s)) n,
            Dur.fin s⟩ :: planList env ctx rest) ∧
    (∀ (env : MathEnv) (x z n : ℚ),
      compile env (.seq [.time (.seq [.flat 0, .flat 1]) (.fin 1), .sleep (.fin 5)])
          defaultContext x z (7/2) n = 1 ∧
      (compileNode env defaultContext (.seq [.flat 0, .flat 1])).fn x z 6 n = 1 ∧
      compile env (.seq [.flat 0, .flat 1]) defaultContext x z 6 n = 0) := by
  refine ⟨?_, ?_, ?_, ?_, ?_, ?_, ?_, ?_, ?_, ?_⟩
  · intro env ctx p h
    simp [compile, topWrap, h]
    cases hd : (compileNode env ctx p).duration <;> simp
  · intro env ctx p h; simp [compile, topWrap, h]
  · intro env ctx p d h hd; simp [compile, topWrap, h, not_lt.mpr hd]
  · intro env ctx a b m; refine ⟨?_, ?_, ?_⟩ <;> simp [compileNode]
  · intro env ctx ps; simp [compileNode]
  · intro env ctx src ang ox oz sx f sz secs
    refine ⟨?_, ?_, ?_, ?_, ?_, ?_, ?_, ?_⟩ <;> (simp only [compileNode]; try rfl)
    split <;> rfl
  · intro env ctx p d hl hd hpos hw
    simp [compile, topWrap, hl, hd, hpos, hw]
  · intro env ctx p d w hl hd hpos hw
    simp [compile, topWrap, hl, hd, hpos, hw]
  · intro env ctx l rest s cd hs hcd hpos
    rw [planList]
    simp [unwrapTime, Pattern.isSleep, hcd, hs, hpos]
  · intro env x z n
    refine ⟨?_, ?_, ?_⟩
    · simp [compile, compileNode, planList, flattenSeqItems, buildSegs, buildSegsGo,
        unwrapTime, Pattern.isSleep, Pattern.sleepDuration, Pattern.isSeq, Dur.isFinite,
        Dur.finPos, topWrap, seqSampleGo, timeMatches, Dur.add, Dur.toQ,
        transitionDuration, jsRem, jsTrunc, smoothstep, clamp01, defaultContext,
        DEFAULT_SECONDS_PER_CYCLE]
      norm_num
    · simp [compileNode, planList, flattenSeqItems, buildSegs, buildSegsGo,
        unwrapTime, Pattern.isSleep, Dur.isFinite, seqSampleGo, timeMatches, Dur.add,
        Dur.toQ, transitionDuration, defaultContext, DEFAULT_SECONDS_PER_CYCLE]
      norm_num
    · simp [compile, compileNode, planList, flattenSeqItems, buildSegs, buildSegsGo,
        unwrapTime, Pattern.isSleep, Dur.isFinite, topWrap, seqSampleGo, timeMatches,
        Dur.add, Dur.toQ, transitionDuration, jsRem, jsTrunc, smoothstep, clamp01,
        defaultContext, DEFAULT_SECONDS_PER_CYCLE]
      norm_num

/-- C2 (witness): the looping rule applied at a concrete input — a `flat`
node compiles with the loop flag clear, so `compile` returns its
play-once function. -/
theorem claim2_looping_rule_witness :
    compile anyEnv (.flat 5) defaultContext
      = (compileNode anyEnv defaultContext (.flat 5)).fn :=
  claim2_looping_rule.1 anyEnv defaultContext (.flat 5) (by simp [compileNode])

set_option maxHeartbeats 2000000 in
/-- C3 (counterexample): the claim says a zero-or-negative `time()`
override on a seq item is ignored, which would make
`seq (time (flat 5) 0) (flat 7)` behave as `seq (flat 5) (flat 7)` —
returning `5` at `t = 0.5`.  The compiled program actually returns `7`
there: the zero override became the first item's effective duration, so
at `t = 0.5` the timeline is already in the second pattern. -/
theorem claim3_counterexample :
    compile anyEnv (.seq [.time (.flat 5) (.fin 0), .flat 7]) defaultContext 0 0 (1/2) 2
      = 7 ∧
    compile anyEnv (.seq [.flat 5, .flat 7]) defaultContext 0 0 (1/2) 2 = 5 := by
  constructor <;>
    (simp [compile, compileNode, planList, flattenSeqItems, buildSegs, buildSegsGo,
      unwrapTime, Pattern.isSleep, Dur.isFinite, Dur.finPos, topWrap, seqSampleGo,
      timeMatches, Dur.add, Dur.toQ, transitionDuration, jsRem, jsTrunc, smoothstep,
      clamp01, defaultContext, DEFAULT_SECONDS_PER_CYCLE]; norm_num)

/-- C3 (amended): a `time()` override that is zero or negative does not
rescale the item's internal time axis (the planned function is the item's
compiled function unchanged), but it is not ignored: the override value
still becomes the item's effective duration in the parent seq timeline,
and the duration of a bare `time` node. -/
theorem claim3_override_rule :
    (∀ (env : MathEnv) (ctx : CompileContext) (p : Pattern) (rest : List Pattern) (e : ℚ),
      e ≤ 0 → p.isSleep = false →
        planList env ctx (.time p (.fin e) :: rest) =
          ⟨false, (compileNode env ctx p).fn, Dur.fin e⟩ :: planList env ctx rest) ∧
    (∀ (env : MathEnv) (ctx : CompileContext) (p : Pattern) (e : ℚ),
      e ≤ 0 →
        (compileNode env ctx (.time p (.fin e))).duration = Dur.fin e ∧
        (compileNode env ctx (.time p (.fin e))).fn = (compileNode env ctx p).fn) := by
  constructor
  · intro env ctx p rest e he hp
    rw [planList]
    simp only [unwrapTime, hp]
    cases hcd : (compileNode env ctx p).duration <;>
      simp [hp, hcd, Option.getD, not_lt.mpr he]
  · intro env ctx p e he
    constructor <;> simp [compileNode, Dur.finPos, not_lt.mpr he]

/-- C3 (witness): the override rule applied at a concrete input — a bare
`time (flat 5) 0` node keeps duration `0` and the unscaled function. -/
theorem claim3_override_rule_witness :
    (compileNode anyEnv defaultContext (.time (.flat 5) (.fin 0))).duration = Dur.fin 0 :=
  (claim3_override_rule.2 anyEnv defaultContext (.flat 5) 0 le_rfl).1

/-- C4: for `compile (seq (flat 0.4) (sleep ∞))`, the infinite sleep ends
planning (any items after it compile to the same program), the compiled
duration is `Infinity`, `compile` applies no modulo loop or wrap
crossfade (it returns the play-once function unchanged), and the program
returns `0.4` at every `x`, `z`, `n` and every `t ≥ 0`. -/
theorem claim4_infinite_hold (env : MathEnv) (x z t n : ℚ) (ht : 0 ≤ t)
    (ps : List Pattern) :
    compile env (.seq (.flat (2/5) :: .sleep Dur.inf :: ps)) defaultContext
      = compile env (.seq [.flat (2/5), .sleep Dur.inf]) defaultContext ∧
    (compileNode env defaultContext (.seq [.flat (2/5), .sleep Dur.inf])).duration
      = Dur.inf ∧
    compile env (.seq [.flat (2/5), .sleep Dur.inf]) defaultContext
      = (compileNode env defaultContext (.seq [.flat (2/5), .sleep Dur.inf])).fn ∧
    compile env (.seq [.flat (2/5), .sleep Dur.inf]) defaultContext x z t n = 2/5 := by
  refine ⟨?_, ?_, ?_, ?_⟩
  · simp [compile, compileNode, planList, flattenSeqItems, buildSegs, buildSegsGo,
      unwrapTime, Pattern.isSleep, Pattern.sleepDuration, Dur.isFinite, topWrap,
      defaultContext, DEFAULT_SECONDS_PER_CYCLE]
  · simp [compileNode, planList, flattenSeqItems, buildSegs, buildSegsGo,
      unwrapTime, Pattern.isSleep, Pattern.sleepDuration, Dur.isFinite,
      defaultContext, DEFAULT_SECONDS_PER_CYCLE]
  · simp [compile, compileNode, planList, flattenSeqItems, buildSegs, buildSegsGo,
      unwrapTime, Pattern.isSleep, Pattern.sleepDuration, Dur.isFinite, topWrap,
      defaultContext, DEFAULT_SECONDS_PER_CYCLE]
  · simp [compile, compileNode, planList, flattenSeqItems, buildSegs, buildSegsGo,
      unwrapTime, Pattern.isSleep, Pattern.sleepDuration, Dur.isFinite, topWrap,
      seqSampleGo, timeMatches, Dur.add, Dur.toQ, defaultContext,
      DEFAULT_SECONDS_PER_CYCLE]

/-- C4 (witness): the infinite-hold program evaluated at the concrete
times of the claim (`t = 0`, `t = 100`, `t = 10000`). -/
theorem claim4_infinite_hold_witness :
    compile anyEnv (.seq [.flat (2/5), .sleep Dur.inf]) defaultContext 0 0 0 2 = 2/5 ∧
    compile anyEnv (.seq [.flat (2/5), .sleep Dur.inf]) defaultContext 0 0 100 2 = 2/5 ∧
    compile anyEnv (.seq [.flat (2/5), .sleep Dur.inf]) defaultContext 0 0 10000 2
      = 2/5 :=
  ⟨(claim4_infinite_hold anyEnv 0 0 0 2 le_rfl []).2.2.2,
   (claim4_infinite_hold anyEnv 0 0 100 2 (by norm_num) []).2.2.2,
   (claim4_infinite_hold anyEnv 0 0 10000 2 (by norm_num) []).2.2.2⟩

/-- C5: a bare `seq` child is spliced into its parent's item list, so
`compile (seq a (seq b c))` is the very same compiled node — same
function, same duration — as `compile (seq a b c)`; a `time`-wrapped
`seq` child is not flattened and stays a single opaque timed block. -/
theorem claim5_seq_flattening (env : MathEnv) (ctx : CompileContext) (a b c : Pattern) :
    compileNode env ctx (.seq [a, .seq [b, c]]) = compileNode env ctx (.seq [a, b, c]) ∧
    compile env (.seq [a, .seq [b, c]]) ctx = compile env (.seq [a, b, c]) ctx ∧
    (∀ (l : List Pattern) (s : Dur),
      flattenSeqItems [.time (.seq l) s] = [.time (.seq l) s]) := by
  have hflat : flattenSeqItems [a, .seq [b, c]] = flattenSeqItems [a, b, c] := by
    rw [flattenSeqItems_cons a [.seq [b, c]], flattenSeqItems_cons a [b, c]]
    simp [flattenSeqItems]
  have hnode : compileNode env ctx (.seq [a, .seq [b, c]])
      = compileNode env ctx (.seq [a, b, c]) := by
    simp only [compileNode]
    rw [hflat]
  exact ⟨hnode, by simp only [compile]; rw [hnode], fun l s => by simp [flattenSeqItems]⟩

/-- C6: from a cleared registry, after any valid sequence of node
constructions (each referencing only already-created nodes, as every real
script does), `getRoots` returns exactly the nodes never passed as a
constructor argument — directly or inside an array-valued slot — of a
later construction, in creation order. -/
theorem claim6_root_registry (cs : List (List RegArg)) (h : validFromB 0 cs = true) :
    getRoots (runScript cs) =
      (List.range cs.length).filter (fun i => neverConsumedLater cs i) := by
  induction cs using List.reverseRecOn with
  | nil => simp [runScript, clearedRegistry, getRoots]
  | append_singleton cs c ih =>
      rw [validFromB_append] at h
      simp only [Bool.and_eq_true] at h
      obtain ⟨h1, h2⟩ := h
      have hrefs : ∀ i ∈ refsOf c, i < cs.length := by
        intro i hi
        have := h2
        simp [validFromB, List.all_eq_true] at this
        exact this i hi
      have hreg := ih h1
      have hnext : (runScript cs).nextId = cs.length := by
        have := foldl_constructNode_nextId cs clearedRegistry
        simpa [runScript, clearedRegistry] using this
      have hrun : runScript (cs ++ [c]) = constructNode (runScript cs) c := by
        simp [runScript, List.foldl_append]
      set n := cs.length with hn
      rw [hrun]
      have hgr : getRoots (constructNode (runScript cs) c)
          = ((getRoots (runScript cs)) ++ [n]).filter (fun j => !(decide (j ∈ refsOf c))) := by
        simp [getRoots, constructNode, foldl_regDelete_eq, hnext]
      have hlen : (cs ++ [c]).length = n + 1 := by simp
      rw [hgr, hreg, List.filter_append, List.filter_filter, hlen, List.range_succ,
        List.filter_append]
      congr 1
      · apply List.filter_congr
        intro i hi
        have hilt : i < n := List.mem_range.mp hi
        have hdrop : (cs ++ [c]).drop (i+1) = cs.drop (i+1) ++ [c] :=
          List.drop_append_of_le_length (by omega)
        simp [neverConsumedLater, hdrop, List.all_append, Bool.and_comm]
      · have hdropn : (cs ++ [c]).drop (n+1) = [] := by
          apply List.drop_eq_nil_of_le
          simp
        have hnc : neverConsumedLater (cs ++ [c]) n = true := by
          simp [neverConsumedLater, hdropn]
        have hqn : ¬ (n ∈ refsOf c) := fun hmem => absurd (hrefs n hmem) (by omega)
        simp [hnc, hqn]

/-- C6 (witness): the claim's example `a = flat 0; b = wave; c = blend a b`
— three constructions, the third consuming the first two — leaves exactly
the last node rooted. -/
theorem claim6_root_registry_witness :
    getRoots (runScript [[], [], [RegArg.node 0, RegArg.node 1]]) = [2] := by
  rw [claim6_root_registry [[], [], [RegArg.node 0, RegArg.node 1]] (by decide)]
  decide

/-- C7: `tween from to duration` with the default `smoothstep` ease, at
any `x`, `z`, `n` and `t ≥ 0`: returns `to` when `duration ≤ 0`; returns
`to` exactly once `t ≥ duration`; and otherwise returns
`from + (to − from) · smoothstep (clamp01 (t / duration))`. -/
theorem claim7_tween (fromV toV duration x z t n : ℚ) (ht : 0 ≤ t) :
    (duration ≤ 0 → tween fromV toV duration none x z t n = toV) ∧
    (duration ≤ t → tween fromV toV duration none x z t n = toV) ∧
    (0 < duration → t < duration →
      tween fromV toV duration none x z t n =
        fromV + (toV - fromV) * smoothstep (clamp01 (t / duration))) := by
  refine ⟨fun h => by simp [tween, h], fun h => ?_, fun hd htlt => ?_⟩
  · by_cases hd : duration ≤ 0
    · simp [tween, hd]
    · push_neg at hd
      have h1 : (1:ℚ) ≤ t / duration := (one_le_div hd).mpr h
      simp only [tween, Option.getD, not_le.mpr hd, if_false]
      rw [min_eq_right h1]
      norm_num [smoothstep, clamp01]
  · have h0 : 0 ≤ t / duration := div_nonneg ht hd.le
    have h1 : t / duration < 1 := (div_lt_one hd).mpr htlt
    simp only [tween, Option.getD, not_le.mpr hd, if_false]
    rw [min_eq_left h1.le]
    congr 1
    rw [clamp01, min_eq_right h1.le, max_eq_right h0]

/-- C7 (witness): `tween 0 2` over one second, sampled at `t = 2`,
returns the target exactly. -/
theorem claim7_tween_witness : tween 0 2 1 none 0 0 2 5 = 2 :=
  (claim7_tween 0 2 1 0 0 2 5 (by norm_num)).2.1 (by norm_num)

/-- C8: a `Pattern` whose kind is not recognized compiles, without any
error, to the constant-zero function: its output is `0` at every input. -/
theorem claim8_unknown_kind (env : MathEnv) (ctx : CompileContext) (kind : String)
    (x z t n : ℚ) :
    compile env (.unknown kind) ctx x z t n = 0 := by
  simp [compile, compileNode, topWrap]

/-- C9: `setdim` stores `round n` clamped to `[2, 64]` (so input `100`
stores `64` and input `0` stores `2`), and `setspc` with a zero or
negative input leaves the configuration unchanged. -/
theorem claim9_config_setters (cfg : PendingConfig) (n v : ℚ) (hv : v ≤ 0) :
    (setdim cfg n).gridSize = some (max 2 (min 64 (jsRound n))) ∧
    (setdim cfg 100).gridSize = some 64 ∧
    (setdim cfg 0).gridSize = some 2 ∧
    setspc cfg v = cfg := by
  refine ⟨rfl, ?_, ?_, ?_⟩
  · norm_num [setdim, jsRound]
  · norm_num [setdim, jsRound]
  · simp [setspc, not_lt.mpr hv]

/-- C9 (witness): the setters at the claim's concrete inputs `100` and
`0`/negative. -/
theorem claim9_config_setters_witness :
    (setdim createPendingConfig 100).gridSize = some 64 ∧
    setspc createPendingConfig (-1) = createPendingConfig :=
  ⟨(claim9_config_setters createPendingConfig 100 (-1) (by norm_num)).2.1,
   (claim9_config_setters createPendingConfig 100 (-1) (by norm_num)).2.2.2⟩

/-- C10: a finite sleep before any pattern item contributes nothing —
`compile (seq (sleep d) ps...)` is the same compiled function as
`compile (seq ps...)`; a `sleep ∞` as the very first item yields the
constant-zero function for all time; and a sleep after a pattern item
produces a hold replaying that pattern (shown at the concrete program
`seq (flat 0.3) (sleep 5) (flat 0.9)`, which still returns `0.3` at
`t = 3`). -/
theorem claim10_leading_sleep (env : MathEnv) (ctx : CompileContext) (d : ℚ)
    (ps : List Pattern) (hps : ps ≠ []) (x z t n : ℚ) :
    compile env (.seq (.sleep (.fin d) :: ps)) ctx = compile env (.seq ps) ctx ∧
    compile env (.seq (.sleep Dur.inf :: ps)) ctx x z t n = 0 ∧
    compile env (.seq [.flat (3/10), .sleep (.fin 5), .flat (9/10)]) defaultContext x z 3 n
      = 3/10 := by
  refine ⟨?_, ?_, ?_⟩
  · simp [compile, compileNode, planList, flattenSeqItems, buildSegs, buildSegsGo,
      unwrapTime, Pattern.isSleep, Pattern.sleepDuration, Dur.isFinite, topWrap]
  · simp [compile, compileNode, planList, flattenSeqItems, buildSegs, buildSegsGo,
      unwrapTime, Pattern.isSleep, Pattern.sleepDuration, Dur.isFinite, topWrap,
      seqSampleGo, timeMatches]
  · simp [compile, compileNode, planList, flattenSeqItems, buildSegs, buildSegsGo,
      unwrapTime, Pattern.isSleep, Pattern.sleepDuration, Dur.isFinite, topWrap,
      seqSampleGo, timeMatches, Dur.add, Dur.toQ, transitionDuration, jsRem, jsTrunc,
      smoothstep, clamp01, defaultContext, DEFAULT_SECONDS_PER_CYCLE]
    norm_num

/-- C10 (witness): a leading two-second sleep before a single `flat`
leaves the compiled program unchanged. -/
theorem claim10_leading_sleep_witness :
    compile anyEnv (.seq [.sleep (.fin 2), .flat 1]) defaultContext
      = compile anyEnv (.seq [.flat 1]) defaultContext :=
  (claim10_leading_sleep anyEnv defaultContext 2 [.flat 1] (by simp) 0 0 0 2).1

end Xenoform
